import Mathlib

/-!
Shallow embedding of the NLPurify scoring engine: the logical-operator
baseclass (`nlpurify/scoring/baseclass.py`), the two concrete strategies
(`nlpurify/scoring/fuzzy/logical.py`, `nlpurify/scoring/regexp/logical.py`),
the similarity wrapper (`nlpurify/fuzzy/wrapper.py`) and the legacy class
(`nlpurify/fuzzy/logical.py`), together with theorems settling the
specification claims about them.

Python exceptions are modelled by an explicit error type and fallible code
returns `Except`. The external collaborators (the fuzzywuzzy similarity
primitive and the `re` regular-expression module) are kept opaque: the
embedding is parameterised over them, and a literal-pattern model of
`re.findall` is supplied for concrete evaluation.
-/

namespace NLPurify

/-- Python exception values the embedded code can surface. The
`invalidArgument` constructor stands for the InvalidArgument error family
that the specification prescribes; the source code never raises it, which
several theorems below make precise. `parseError` models a Python
SyntaxError raised by dynamic evaluation of an unparsable expression. -/
inductive PyError : Type
  | typeError (msg : String)
  | attributeError (msg : String)
  | nameError (name : String)
  | parseError
  | reError (msg : String)
  | invalidArgument (msg : String)
  deriving DecidableEq

/-- Whether an error value belongs to the InvalidArgument family demanded
by the specification. -/
def PyError.isInvalidArgument : PyError → Bool
  | .invalidArgument _ => true
  | _ => false

/-- The comparison operator tokens enumerated by the specification for the
`evaluate` protocol. -/
def comparisonOperators : List String :=
  [">", ">=", "<", "<=", "==", "!="]

/-- Model of the element expression `score <operator> <thresh>` inside the
dynamically evaluated comprehension of `BaseLogicalOperator.evaluate`. The
six comparison tokens produce boolean elements. The token `+` is kept in
the model because it also parses in Python: the comprehension then holds
integers, which `all`/`any` reduce by integer truthiness (nonzero is true).
Operator strings that are not Python binary-operator tokens fail to parse
and are mapped to `none` (a SyntaxError downstream); no theorem below
quantifies over that residual case. -/
def operatorElement (operator : String) (thresh : Int) : Option (Int → Bool) :=
  if operator = ">" then some (fun score => decide (score > thresh))
  else if operator = ">=" then some (fun score => decide (score ≥ thresh))
  else if operator = "<" then some (fun score => decide (score < thresh))
  else if operator = "<=" then some (fun score => decide (score ≤ thresh))
  else if operator = "==" then some (fun score => decide (score = thresh))
  else if operator = "!=" then some (fun score => decide (score ≠ thresh))
  else if operator = "+" then some (fun score => decide (score + thresh ≠ 0))
  else none

/-- Model of the dynamic evaluation in `BaseLogicalOperator.evaluate`:
`eval` of the string interpolating `logic`, `operator`, `thresh` and the
score list into `logic([score operator thresh for score in scores])`.
A `logic` name other than `all`/`any` is looked up in an environment that
does not bind it, giving a NameError; this is faithful for names unbound
among the Python builtins and the module imports, such as `xor`, which is
the only such name the theorems below use. -/
def pyEval (logic operator : String) (thresh : Int) (scores : List Int) :
    Except PyError Bool :=
  if logic = "all" ∨ logic = "any" then
    match operatorElement operator thresh with
    | some f => .ok (if logic = "all" then scores.all f else scores.any f)
    | none => .error .parseError
  else
    .error (.nameError logic)

/-- A Python list comprehension whose element expression may raise: elements
are produced left to right and the first exception aborts the whole
comprehension, so no partial list is ever returned. -/
def listComp {α β : Type} (f : α → Except PyError β) :
    List α → Except PyError (List β)
  | [] => .ok []
  | x :: xs =>
    match f x with
    | .error e => .error e
    | .ok y =>
      match listComp f xs with
      | .error e => .error e
      | .ok ys => .ok (y :: ys)

/-- The body of `BaseLogicalOperator.__init__(self)`: it accepts no
positional argument besides `self`, so forwarding any argument to it is a
TypeError. `args` is the list of forwarded positional arguments. -/
def BaseLogicalOperator.initSuper (args : List String) : Except PyError Unit :=
  if args.isEmpty then .ok ()
  else .error (.typeError "BaseLogicalOperator.__init__ takes 1 positional argument")

/-- The body of `BaseLogicalOperator.evaluate`: it first computes
`self.scores()` (so a failure of the scoring call surfaces before anything
else) and only then dynamically evaluates the reduction string. -/
def BaseLogicalOperator.evaluate (scoresResult : Except PyError (List Int))
    (thresh : Int) (logic operator : String) : Except PyError Bool :=
  match scoresResult with
  | .error e => .error e
  | .ok scores => pyEval logic operator thresh scores

/-- The external fuzzywuzzy similarity primitive, kept opaque: one scoring
function per supported method name. -/
structure FuzzPrimitive : Type where
  ratioFn : String → String → Int
  partialRatioFn : String → String → Int
  tokenSortRatioFn : String → String → Int

/-- The method registry dictionary inside `fuzzy_score`, accessed with
`.get(method)`: an unknown method name yields `None`. -/
def methodLookup (fuzz : FuzzPrimitive) (method : String) :
    Option (String → String → Int) :=
  if method = "ratio" then some fuzz.ratioFn
  else if method = "partial_ratio" then some fuzz.partialRatioFn
  else if method = "token_sort_ratio" then some fuzz.tokenSortRatioFn
  else none

/-- `nlpurify.fuzzy.wrapper.fuzzy_score(string, reference, method)`: looks
the method up in the registry and calls it as `method(reference, string)`,
reference first. When the lookup yields `None`, calling it is a TypeError
and the primitive is never invoked. -/
def fuzzy_score (fuzz : FuzzPrimitive) (string reference method : String) :
    Except PyError Int :=
  match methodLookup fuzz method with
  | some f => .ok (f reference string)
  | none => .error (.typeError "NoneType object is not callable")

namespace Scoring

/-- The attribute state that the methods of
`nlpurify.scoring.fuzzy.logical.LogicalFuzzy` read through `self`. Note
that the source constructor assigns only `method`: `string` and
`references` are never assigned because `super().__init__` fails first,
which `LogicalFuzzy.construct` models. -/
structure LogicalFuzzy : Type where
  string : String
  references : List String
  method : String

/-- `LogicalFuzzy.__init__(string, *references, method)`: it forwards
`(string, *references)` to `BaseLogicalOperator.__init__`, which accepts
no argument, so construction raises TypeError. The success branch is dead
code (the forwarded list is never empty, as it always holds `string`). -/
def LogicalFuzzy.construct (string : String) (references : List String)
    (method : String) : Except PyError LogicalFuzzy :=
  match BaseLogicalOperator.initSuper (string :: references) with
  | .error e => .error e
  | .ok _ => .ok { string := string, references := references, method := method }

/-- `LogicalFuzzy.scores()`: the comprehension
`[fuzzy_score(self.string, reference, self.method) for reference in self.references]`. -/
def LogicalFuzzy.scores (fuzz : FuzzPrimitive) (self : LogicalFuzzy) :
    Except PyError (List Int) :=
  listComp (fun reference => fuzzy_score fuzz self.string reference self.method)
    self.references

/-- `evaluate` as inherited from the baseclass by the fuzzy strategy. -/
def LogicalFuzzy.evaluate (fuzz : FuzzPrimitive) (self : LogicalFuzzy)
    (thresh : Int) (logic operator : String) : Except PyError Bool :=
  BaseLogicalOperator.evaluate (LogicalFuzzy.scores fuzz self) thresh logic operator

/-- The attribute state that the methods of
`nlpurify.scoring.regexp.logical.LogicalRegexp` read through `self`. As
with the fuzzy variant, the source never actually assigns these fields. -/
structure LogicalRegexp : Type where
  string : String
  references : List String

/-- `LogicalRegexp.__init__(string, *references)`: forwards to the
baseclass constructor exactly as the fuzzy variant does. -/
def LogicalRegexp.construct (string : String) (references : List String) :
    Except PyError LogicalRegexp :=
  match BaseLogicalOperator.initSuper (string :: references) with
  | .error e => .error e
  | .ok _ => .ok { string := string, references := references }

/-- `LogicalRegexp.scores()`: first the comprehension
`[re.findall(pattern, self.string) for pattern in self.references]`, then
`[100 if li else 0 for li in found]`. The `re.findall` collaborator is a
parameter that may raise on a malformed pattern. -/
def LogicalRegexp.scores
    (findall : String → String → Except PyError (List String))
    (self : LogicalRegexp) : Except PyError (List Int) :=
  match listComp (fun pattern => findall pattern self.string) self.references with
  | .error e => .error e
  | .ok found => .ok (found.map (fun li => if li.isEmpty then (0 : Int) else 100))

/-- `evaluate` as inherited from the baseclass by the regexp strategy. -/
def LogicalRegexp.evaluate
    (findall : String → String → Except PyError (List String))
    (self : LogicalRegexp) (thresh : Int) (logic operator : String) :
    Except PyError Bool :=
  BaseLogicalOperator.evaluate (LogicalRegexp.scores findall self) thresh logic operator

end Scoring

namespace Fuzzy

/-- The attribute state of the legacy `nlpurify.fuzzy.logical.LogicalFuzzy`
instance: its constructor assigns `string`, `references` and `method`. -/
structure LogicalFuzzy : Type where
  string : String
  references : List String
  method : String

/-- The legacy constructor, which succeeds and stores its arguments. -/
def LogicalFuzzy.construct (string : String) (references : List String)
    (method : String) : LogicalFuzzy :=
  { string := string, references := references, method := method }

/-- `LogicalFuzzy.fuzzy_scores()`: the comprehension
`[fuzzy_score(self.string, reference, self.method) for reference in self.references]`. -/
def LogicalFuzzy.fuzzy_scores (fuzz : FuzzPrimitive) (self : LogicalFuzzy) :
    Except PyError (List Int) :=
  listComp (fun reference => fuzzy_score fuzz self.string reference self.method)
    self.references

/-- Attribute lookup on a legacy instance for a score-computing callable:
the class body defines exactly one such method, named `fuzzy_scores`. Any
other name is absent and looking it up raises AttributeError. -/
def LogicalFuzzy.scoreMethod (fuzz : FuzzPrimitive) (self : LogicalFuzzy)
    (name : String) : Option (Except PyError (List Int)) :=
  if name = "fuzzy_scores" then some (LogicalFuzzy.fuzzy_scores fuzz self)
  else none

/-- The legacy `LogicalFuzzy.evaluate`: its body is
`scores = self._fuzzy_score_()` followed by the dynamic evaluation. The
attribute lookup of `_fuzzy_score_` happens first; were it to succeed the
method would continue like the baseclass `evaluate` does. -/
def LogicalFuzzy.evaluate (fuzz : FuzzPrimitive) (self : LogicalFuzzy)
    (thresh : Int) (logic operator : String) : Except PyError Bool :=
  match LogicalFuzzy.scoreMethod fuzz self "_fuzzy_score_" with
  | some scoresResult => BaseLogicalOperator.evaluate scoresResult thresh logic operator
  | none => .error (.attributeError "LogicalFuzzy object has no attribute _fuzzy_score_")

end Fuzzy

/-- Model of the external `re.findall` collaborator restricted to literal
(metacharacter-free) patterns: one entry per position of the subject at
which the pattern starts an occurrence. The scoring layer only inspects
emptiness of the result, for which this agrees with the non-overlapping
scan Python performs. -/
def findallLit (pattern subject : String) : List String :=
  (List.range (subject.toList.length + 1)).filterMap (fun i =>
    if pattern.toList.isPrefixOf (subject.toList.drop i) then some pattern
    else none)

/-- A total `re.findall` collaborator for well-formed literal patterns. -/
def reFindallLit (pattern subject : String) : Except PyError (List String) :=
  .ok (findallLit pattern subject)

/-- Specification-side notion of an unanchored match of a literal pattern:
the pattern occurs somewhere inside the subject. -/
def strOccurs (pattern subject : String) : Bool :=
  decide (pattern.toList <:+: subject.toList)

/-- A `re.findall` collaborator for which the pattern `(` is malformed:
compiling it raises `re.error` with the message Python produces, a message
about the pattern text itself that carries no reference index. All other
patterns are treated as well-formed literals. -/
def reFindallModel (pattern subject : String) : Except PyError (List String) :=
  if pattern = "(" then
    .error (.reError "missing ), unterminated subpattern at position 0")
  else .ok (findallLit pattern subject)

/-- A concrete similarity primitive used to instantiate theorems: every
method scores 0. -/
def constFuzz : FuzzPrimitive :=
  { ratioFn := fun _ _ => 0
    partialRatioFn := fun _ _ => 0
    tokenSortRatioFn := fun _ _ => 0 }

/-- A comprehension whose element expression never raises returns the plain
map of the element function. -/
theorem listComp_ok_of_eq {α β : Type} (f : α → Except PyError β) (g : α → β)
    (h : ∀ a, f a = .ok (g a)) :
    ∀ (l : List α), listComp f l = .ok (l.map g)
  | [] => rfl
  | x :: xs => by
    simp only [listComp, h x, listComp_ok_of_eq f g h xs, List.map_cons]

/-- A comprehension that returns a list returns one entry per input. -/
theorem listComp_ok_length {α β : Type} (f : α → Except PyError β) :
    ∀ (l : List α) (v : List β), listComp f l = .ok v → v.length = l.length
  | [], v, h => by
    simp only [listComp] at h
    injection h with h
    subst h
    rfl
  | x :: xs, v, h => by
    simp only [listComp] at h
    cases hfx : f x with
    | error e => rw [hfx] at h; simp at h
    | ok y =>
      rw [hfx] at h
      cases hrest : listComp f xs with
      | error e => rw [hrest] at h; simp at h
      | ok ys =>
        rw [hrest] at h
        simp only [] at h
        injection h with h
        rw [← h]
        have := listComp_ok_length f xs ys hrest
        simp [this]

/-- A comprehension that returns a list is positionally aligned with its
input: the entry at index `i` is the value of the element expression at the
input at index `i`. -/
theorem listComp_ok_get {α β : Type} (f : α → Except PyError β) :
    ∀ (l : List α) (v : List β), listComp f l = .ok v →
      ∀ (i : Nat) (hi : i < l.length) (hv : i < v.length),
        f (l.get ⟨i, hi⟩) = .ok (v.get ⟨i, hv⟩)
  | [], _, _, _, hi, _ => absurd hi (by simp)
  | x :: xs, v, h, i, hi, hv => by
    simp only [listComp] at h
    cases hfx : f x with
    | error e => rw [hfx] at h; simp at h
    | ok y =>
      rw [hfx] at h
      cases hrest : listComp f xs with
      | error e => rw [hrest] at h; simp at h
      | ok ys =>
        rw [hrest] at h
        simp only [] at h
        injection h with h
        subst h
        cases i with
        | zero => exact hfx
        | succ n =>
          exact listComp_ok_get f xs ys hrest n
            (Nat.lt_of_succ_lt_succ hi) (Nat.lt_of_succ_lt_succ hv)

/-- When every element before some bad input succeeds and the bad input
raises, the comprehension raises that exact error: evaluation is fail-fast
and the error passes through unchanged. -/
theorem listComp_append_error {α β : Type} (f : α → Except PyError β)
    (e : PyError) :
    ∀ (good : List α) (bad : α) (rest : List α),
      (∀ p ∈ good, ∃ w, f p = .ok w) → f bad = .error e →
      listComp f (good ++ bad :: rest) = .error e
  | [], bad, rest, _, hbad => by
    simp only [List.nil_append, listComp, hbad]
  | g :: gs, bad, rest, hgood, hbad => by
    obtain ⟨w, hw⟩ := hgood g (List.mem_cons_self g gs)
    have ih := listComp_append_error f e gs bad rest
      (fun p hp => hgood p (List.mem_cons_of_mem g hp)) hbad
    simp only [List.cons_append, listComp, hw, List.append_eq, ih]

/-- The literal-pattern findall model is nonempty exactly when the pattern
occurs inside the subject. -/
theorem findallLit_ne_nil_iff (pattern subject : String) :
    findallLit pattern subject ≠ [] ↔ pattern.toList <:+: subject.toList := by
  constructor
  · intro h
    unfold findallLit at h
    rw [Ne, List.filterMap_eq_nil_iff] at h
    push_neg at h
    obtain ⟨i, hi, hne⟩ := h
    by_cases hp : pattern.toList.isPrefixOf (subject.toList.drop i)
    · rw [List.isPrefixOf_iff_prefix] at hp
      obtain ⟨t, ht⟩ := hp
      exact ⟨subject.toList.take i, t, by
        rw [List.append_assoc, ht, List.take_append_drop]⟩
    · rw [if_neg hp] at hne
      exact absurd rfl hne
  · rintro ⟨u, t, he⟩
    intro hnil
    unfold findallLit at hnil
    rw [List.filterMap_eq_nil_iff] at hnil
    have hidrop : subject.toList.drop u.length = pattern.toList ++ t := by
      rw [← he, List.append_assoc, List.drop_left]
    have hilen : u.length < subject.toList.length + 1 := by
      have hl := congrArg List.length he
      simp only [List.length_append] at hl
      omega
    have hcase := hnil u.length (List.mem_range.mpr hilen)
    rw [hidrop] at hcase
    have hpre : pattern.toList.isPrefixOf (pattern.toList ++ t) = true :=
      List.isPrefixOf_iff_prefix.mpr (List.prefix_append _ _)
    rw [if_pos hpre] at hcase
    exact absurd hcase (by simp)

/-- Per-pattern score of the regexp strategy under the literal findall
model: 100 exactly when the pattern occurs in the subject, else 0. -/
theorem findallLit_score (pattern subject : String) :
    (if (findallLit pattern subject).isEmpty then (0 : Int) else 100)
      = (if strOccurs pattern subject then (100 : Int) else 0) := by
  by_cases h : pattern.toList <:+: subject.toList
  · have h1 : findallLit pattern subject ≠ [] :=
      (findallLit_ne_nil_iff pattern subject).mpr h
    have h2 : strOccurs pattern subject = true := by
      simp only [strOccurs, decide_eq_true_eq]
      exact h
    rw [h2, if_pos rfl]
    rw [if_neg]
    simp [List.isEmpty_iff, h1]
  · have h1 : findallLit pattern subject = [] := by
      by_contra hne
      exact h ((findallLit_ne_nil_iff pattern subject).mp hne)
    have h2 : strOccurs pattern subject = false := by
      simp only [strOccurs, decide_eq_false_iff_not]
      exact h
    rw [h2, h1]
    simp

/-- C1: the claim says every construction of a concrete scoring strategy
succeeds and stores the subject and references. On the code the opposite
holds: `BaseLogicalOperator.__init__` accepts no argument while both
subclass constructors forward `(string, *references)` to it, so every
construction of `LogicalFuzzy` or `LogicalRegexp` raises TypeError, for
every subject and every (also empty) reference sequence. -/
theorem c1_construction_always_raises (string method : String)
    (references : List String) :
    Scoring.LogicalFuzzy.construct string references method
      = .error (.typeError "BaseLogicalOperator.__init__ takes 1 positional argument") ∧
    Scoring.LogicalRegexp.construct string references
      = .error (.typeError "BaseLogicalOperator.__init__ takes 1 positional argument") :=
  ⟨rfl, rfl⟩

/-- C2: on a score vector `s`, `evaluate(t, "all", ">=")` is true exactly
when every score is at least `t`, and `evaluate(t, "any", ">=")` is true
exactly when some score is at least `t`. -/
theorem c2_threshold_semantics (s : List Int) (t : Int) :
    (BaseLogicalOperator.evaluate (.ok s) t "all" ">=" = .ok true
      ↔ ∀ x ∈ s, x ≥ t) ∧
    (BaseLogicalOperator.evaluate (.ok s) t "any" ">=" = .ok true
      ↔ ∃ x ∈ s, x ≥ t) := by
  constructor
  · show Except.ok (s.all fun score => decide (score ≥ t)) = .ok true ↔ _
    simp [List.all_eq_true]
  · show Except.ok (s.any fun score => decide (score ≥ t)) = .ok true ↔ _
    simp [List.any_eq_true]

/-- C9: the similarity primitive is always invoked with the reference as
its first argument and the subject as its second argument, for each of the
three supported methods, and hence the fuzzy score vector scores each
reference as similarity(reference, subject). -/
theorem c9_reference_first (fuzz : FuzzPrimitive) (s r : String)
    (refs : List String) :
    fuzzy_score fuzz s r "ratio" = .ok (fuzz.ratioFn r s) ∧
    fuzzy_score fuzz s r "partial_ratio" = .ok (fuzz.partialRatioFn r s) ∧
    fuzzy_score fuzz s r "token_sort_ratio" = .ok (fuzz.tokenSortRatioFn r s) ∧
    Scoring.LogicalFuzzy.scores fuzz ⟨s, refs, "partial_ratio"⟩
      = .ok (refs.map fun reference => fuzz.partialRatioFn reference s) :=
  ⟨rfl, rfl, rfl,
    listComp_ok_of_eq _ (fun reference => fuzz.partialRatioFn reference s)
      (fun _ => rfl) refs⟩

/-- C10: on the legacy publicly exported class, `evaluate` looks up a
method named `_fuzzy_score_`, which the class does not define (its only
score-computing method is `fuzzy_scores`), so every call to `evaluate`
raises AttributeError before any comparison or logical reduction, for all
arguments; the documented boolean result is never returned. -/
theorem c10_legacy_evaluate_attributeError (fuzz : FuzzPrimitive)
    (self : Fuzzy.LogicalFuzzy) (thresh : Int) (logic operator : String) :
    Fuzzy.LogicalFuzzy.scoreMethod fuzz self "_fuzzy_score_" = none ∧
    Fuzzy.LogicalFuzzy.scoreMethod fuzz self "fuzzy_scores"
      = some (Fuzzy.LogicalFuzzy.fuzzy_scores fuzz self) ∧
    Fuzzy.LogicalFuzzy.evaluate fuzz self thresh logic operator
      = .error (.attributeError "LogicalFuzzy object has no attribute _fuzzy_score_") :=
  ⟨rfl, rfl, rfl⟩

/-- C3 counterexample: on a concrete fuzzy strategy state,
`evaluate(80, "xor", ">=")` fails with a NameError naming `xor`, which is
not an InvalidArgument error; and with an unresolvable method the scoring
call runs first, so its TypeError surfaces instead of any complaint about
the invalid logic value — refuting both parts of the claim. The last
conjunct shows an operator outside the enumerated set (`+`) that does not
fail at all. -/
theorem c3_counterexample :
    Scoring.LogicalFuzzy.evaluate constFuzz
        ⟨"a quick brown fox", ["quick"], "partial_ratio"⟩ 80 "xor" ">="
      = .error (.nameError "xor") ∧
    PyError.isInvalidArgument (.nameError "xor") = false ∧
    Scoring.LogicalFuzzy.evaluate constFuzz
        ⟨"a quick brown fox", ["quick"], "bogus"⟩ 80 "xor" ">="
      = .error (.typeError "NoneType object is not callable") ∧
    Scoring.LogicalFuzzy.evaluate constFuzz
        ⟨"a quick brown fox", ["quick"], "partial_ratio"⟩ 80 "all" "+"
      = .ok true :=
  ⟨rfl, rfl, rfl, rfl⟩

/-- C3 amended: a logic value that is an unbound name, such as `xor`, makes
`evaluate` fail with a NameError naming that value — not an InvalidArgument
error — and the `scores()` call is performed before that failure, so an
error raised by `scores()` preempts the NameError; an operator outside the
enumerated set need not fail at all: with operator `+` the call returns the
integer-truthiness reduction of `score + thresh`. -/
theorem c3_amended (s : List Int) (t : Int) (e : PyError) :
    BaseLogicalOperator.evaluate (.ok s) t "xor" ">=" = .error (.nameError "xor") ∧
    PyError.isInvalidArgument (.nameError "xor") = false ∧
    BaseLogicalOperator.evaluate (.error e) t "xor" ">=" = .error e ∧
    BaseLogicalOperator.evaluate (.ok s) t "all" "+"
      = .ok (s.all fun score => decide (score + t ≠ 0)) :=
  ⟨rfl, rfl, rfl, rfl⟩

/-- C4 counterexample: on a concrete fuzzy strategy state with the unknown
method `bogus`, `scores()` fails with TypeError (calling the `None` that
the registry lookup produced), which is not an InvalidArgument error —
refuting the claimed error family. -/
theorem c4_counterexample :
    Scoring.LogicalFuzzy.scores constFuzz
        ⟨"a quick brown fox", ["quick", "slow"], "bogus"⟩
      = .error (.typeError "NoneType object is not callable") ∧
    PyError.isInvalidArgument (.typeError "NoneType object is not callable")
      = false :=
  ⟨rfl, rfl⟩

/-- C4 amended: with a method outside the three supported names and a
nonempty reference sequence, `scores()` fails with a TypeError at the first
reference, before the external similarity primitive is invoked for any
reference — the outcome is one and the same error for every primitive — and
no partial score vector is returned. -/
theorem c4_amended (fuzz : FuzzPrimitive) (string method reference : String)
    (rest : List String)
    (h : method ∉ (["ratio", "partial_ratio", "token_sort_ratio"] : List String)) :
    Scoring.LogicalFuzzy.scores fuzz ⟨string, reference :: rest, method⟩
      = .error (.typeError "NoneType object is not callable") := by
  simp only [List.mem_cons, List.mem_singleton, not_or] at h
  obtain ⟨h1, h2, h3⟩ := h
  have hlookup : methodLookup fuzz method = none := by
    simp [methodLookup, h1, h2, h3]
  simp [Scoring.LogicalFuzzy.scores, listComp, fuzzy_score, hlookup]

/-- C4 witness: the amended theorem applied at a concrete unknown method. -/
theorem c4_amended_witness :
    Scoring.LogicalFuzzy.scores constFuzz ⟨"abc", ["a", "b"], "bogus"⟩
      = .error (.typeError "NoneType object is not callable") :=
  c4_amended constFuzz "abc" "bogus" "a" ["b"] (by decide)

/-- C5 counterexample: with the malformed pattern `(` placed at index 0 of
the references in one call and at index 1 in another, `scores()` fails with
the identical re.error value in both calls, so the error does not identify
the offending pattern by its index; it is also not an InvalidArgument-style
error carrying index data. -/
theorem c5_counterexample :
    Scoring.LogicalRegexp.scores reFindallModel ⟨"a quick brown fox", ["("]⟩
      = .error (.reError "missing ), unterminated subpattern at position 0") ∧
    Scoring.LogicalRegexp.scores reFindallModel
        ⟨"a quick brown fox", ["quick", "("]⟩
      = .error (.reError "missing ), unterminated subpattern at position 0") ∧
    PyError.isInvalidArgument
        (.reError "missing ), unterminated subpattern at position 0")
      = false :=
  ⟨rfl, rfl, rfl⟩

/-- C5 amended: when the patterns before some malformed pattern are all
well-formed, `scores()` fails with exactly the re.error the findall
collaborator raised for that pattern, propagated unchanged — it carries the
message about the pattern text but no index into the references — and no
partial score vector is returned. -/
theorem c5_amended (findall : String → String → Except PyError (List String))
    (subject : String) (good : List String) (bad : String)
    (rest : List String) (e : PyError)
    (hgood : ∀ p ∈ good, ∃ w, findall p subject = .ok w)
    (hbad : findall bad subject = .error e) :
    Scoring.LogicalRegexp.scores findall ⟨subject, good ++ bad :: rest⟩
      = .error e := by
  have hcomp := listComp_append_error (fun pattern => findall pattern subject)
    e good bad rest hgood hbad
  simp [Scoring.LogicalRegexp.scores, hcomp]

/-- C5 witness: the amended theorem applied at a concrete reference list
with a well-formed pattern before the malformed one. -/
theorem c5_amended_witness :
    Scoring.LogicalRegexp.scores reFindallModel ⟨"abc", ["a", "("]⟩
      = .error (.reError "missing ), unterminated subpattern at position 0") :=
  c5_amended reFindallModel "abc" ["a"] "(" []
    (.reError "missing ), unterminated subpattern at position 0")
    (by
      intro p hp
      rw [List.mem_singleton] at hp
      subst hp
      exact ⟨findallLit "a" "abc", rfl⟩)
    rfl

/-- C6: under the literal-pattern findall model the regexp strategy scores
each reference 100 when the pattern matches anywhere inside the subject
(unanchored occurrence) and 0 otherwise, positionally; in particular on
subject `a quick brown fox` with references `quick` and `slow` it returns
the vector 100, 0. -/
theorem c6_regexp_scores :
    (∀ (subject : String) (references : List String),
        Scoring.LogicalRegexp.scores reFindallLit ⟨subject, references⟩
          = .ok (references.map fun pattern =>
              if strOccurs pattern subject then (100 : Int) else 0)) ∧
    Scoring.LogicalRegexp.scores reFindallLit
        ⟨"a quick brown fox", ["quick", "slow"]⟩
      = .ok [100, 0] := by
  constructor
  · intro subject references
    have hcomp := listComp_ok_of_eq (fun pattern => reFindallLit pattern subject)
      (fun pattern => findallLit pattern subject) (fun _ => rfl) references
    unfold Scoring.LogicalRegexp.scores
    rw [hcomp]
    show Except.ok ((references.map fun pattern => findallLit pattern subject).map
      fun li => if li.isEmpty then (0 : Int) else 100) = _
    rw [List.map_map]
    have hfun : ((fun li => if li.isEmpty then (0 : Int) else 100) ∘
          fun pattern => findallLit pattern subject)
        = fun pattern => if strOccurs pattern subject then (100 : Int) else 0 := by
      funext pattern
      exact findallLit_score pattern subject
    rw [hfun]
  · rfl

/-- C7: for both strategy variants, a score vector returned by `scores()`
has exactly one entry per reference, and the entry at each index is the
score of the reference at that same index — the vector is positionally
aligned, never re-sorted or de-duplicated. -/
theorem c7_alignment :
    (∀ (fuzz : FuzzPrimitive) (self : Scoring.LogicalFuzzy) (v : List Int),
        Scoring.LogicalFuzzy.scores fuzz self = .ok v →
        v.length = self.references.length ∧
        ∀ (i : Nat) (hi : i < self.references.length) (hv : i < v.length),
          fuzzy_score fuzz self.string (self.references.get ⟨i, hi⟩) self.method
            = .ok (v.get ⟨i, hv⟩)) ∧
    (∀ (findall : String → String → Except PyError (List String))
        (self : Scoring.LogicalRegexp) (v : List Int),
        Scoring.LogicalRegexp.scores findall self = .ok v →
        v.length = self.references.length ∧
        ∀ (i : Nat) (hi : i < self.references.length) (hv : i < v.length),
          ∃ li, findall (self.references.get ⟨i, hi⟩) self.string = .ok li ∧
            v.get ⟨i, hv⟩ = if li.isEmpty then (0 : Int) else 100) := by
  constructor
  · intro fuzz self v h
    exact ⟨listComp_ok_length _ _ _ h, fun i hi hv => listComp_ok_get _ _ _ h i hi hv⟩
  · intro findall self v h
    unfold Scoring.LogicalRegexp.scores at h
    cases hcomp : listComp (fun pattern => findall pattern self.string)
        self.references with
    | error e => rw [hcomp] at h; simp at h
    | ok found =>
      rw [hcomp] at h
      simp only [] at h
      injection h with h
      subst h
      have hlen := listComp_ok_length _ _ _ hcomp
      constructor
      · simp [hlen]
      · intro i hi hv
        have hif : i < found.length := by simp at hv; omega
        refine ⟨found.get ⟨i, hif⟩, listComp_ok_get _ _ _ hcomp i hi hif, ?_⟩
        simp [List.get_eq_getElem, List.getElem_map]

/-- C7 witness: the alignment theorem applied to a concrete fuzzy strategy
state whose score vector is computed by evaluation. -/
theorem c7_alignment_witness :
    ([0, 0] : List Int).length = (["quick", "slow"] : List String).length :=
  (c7_alignment.1 constFuzz ⟨"a quick brown fox", ["quick", "slow"], "ratio"⟩
    [0, 0] rfl).1

/-- C8: with zero references each variant returns the empty score vector,
and on the empty vector `evaluate` returns true under `all` and false under
`any`, for every threshold and every operator in the enumerated set. -/
theorem c8_empty_references (fuzz : FuzzPrimitive)
    (findall : String → String → Except PyError (List String))
    (string method : String) (t : Int) (operator : String)
    (hop : operator ∈ comparisonOperators) :
    Scoring.LogicalFuzzy.scores fuzz ⟨string, [], method⟩ = .ok [] ∧
    Scoring.LogicalRegexp.scores findall ⟨string, []⟩ = .ok [] ∧
    Scoring.LogicalFuzzy.evaluate fuzz ⟨string, [], method⟩ t "all" operator
      = .ok true ∧
    Scoring.LogicalFuzzy.evaluate fuzz ⟨string, [], method⟩ t "any" operator
      = .ok false ∧
    Scoring.LogicalRegexp.evaluate findall ⟨string, []⟩ t "all" operator
      = .ok true ∧
    Scoring.LogicalRegexp.evaluate findall ⟨string, []⟩ t "any" operator
      = .ok false := by
  simp only [comparisonOperators, List.mem_cons, List.not_mem_nil, or_false] at hop
  rcases hop with rfl | rfl | rfl | rfl | rfl | rfl <;>
    exact ⟨rfl, rfl, rfl, rfl, rfl, rfl⟩

/-- C8 witness: the empty-references theorem applied at concrete inputs. -/
theorem c8_empty_references_witness :
    Scoring.LogicalFuzzy.scores constFuzz ⟨"some text", [], "partial_ratio"⟩
      = .ok [] ∧
    Scoring.LogicalRegexp.scores reFindallLit ⟨"some text", []⟩ = .ok [] ∧
    Scoring.LogicalFuzzy.evaluate constFuzz ⟨"some text", [], "partial_ratio"⟩
        50 "all" ">=" = .ok true ∧
    Scoring.LogicalFuzzy.evaluate constFuzz ⟨"some text", [], "partial_ratio"⟩
        50 "any" ">=" = .ok false ∧
    Scoring.LogicalRegexp.evaluate reFindallLit ⟨"some text", []⟩ 50 "all" ">="
      = .ok true ∧
    Scoring.LogicalRegexp.evaluate reFindallLit ⟨"some text", []⟩ 50 "any" ">="
      = .ok false :=
  c8_empty_references constFuzz reFindallLit "some text" "partial_ratio" 50 ">="
    (by decide)

end NLPurify
